import Mathlib

/-!
Verification development for the record-management-system backend API.

The embedding models `src/backend_api/src/api/services.py` (business logic),
`src/backend_api/src/api/models.py` (the `Record` entity), and the HTTP
status mapping of `src/backend_api/src/api/main.py`.

The SQLite table of `Record` rows is modelled as a list of records together
with the next auto-increment id (`Store`).  Timestamps are modelled as natural
numbers; each mutating operation receives the current clock value `now`
(standing for `func.now()` / `datetime.utcnow`).  A SQLAlchemy session that
raises before committing leaves the database unchanged, so the service
functions return `Except`: on an error value the caller keeps the old store,
exactly as the HTTP layer does.
-/

/-- The status string `"active"`, the only status with business meaning. -/
def activeStatus : String := "active"

/-- A row of the `records` table (`models.py`, class `Record`). -/
structure Record where
  id : Nat
  title : String
  description : Option String
  status : String
  created_at : Nat
  updated_at : Nat
deriving Repr, DecidableEq

/-- Payload for creating a record (`schemas.py`, `RecordCreate`).  Pydantic
fills `status` with the default `"active"` when the field is omitted, so at
the service layer the field is always present. -/
structure RecordCreate where
  title : String
  description : Option String
  status : String
deriving Repr, DecidableEq

/-- Partial update payload (`schemas.py`, `RecordUpdate`).  All three fields
are `Optional` with default `None`; pydantic does not distinguish an omitted
field from an explicit `null`, so `none` covers both. -/
structure RecordUpdate where
  title : Option String
  description : Option String
  status : Option String
deriving Repr, DecidableEq

/-- The database: the `records` table plus the next auto-increment id. -/
structure Store where
  records : List Record
  next_id : Nat
deriving Repr, DecidableEq

/-- The empty database; SQLite assigns ids starting from 1. -/
def emptyStore : Store := { records := [], next_id := 1 }

/-- The two error kinds raised by the service layer: `ValueError`
(conflict) and `LookupError` (not found). -/
inductive SvcError where
  | conflict
  | notFound
deriving Repr, DecidableEq

/-- Validation performed by `RecordBase` before a payload reaches the
service layer: trimmed non-empty title of at most 255 characters, non-empty
status of at most 50 characters. -/
def ValidCreate (p : RecordCreate) : Prop :=
  p.title ≠ "" ∧ p.title.length ≤ 255 ∧ p.status ≠ "" ∧ p.status.length ≤ 50

instance (p : RecordCreate) : Decidable (ValidCreate p) := by
  unfold ValidCreate; infer_instance

/-- The query `select(Record).where(Record.title == t, Record.status == "active")`
of `create_record`, as a Boolean existence test. -/
def hasActiveTitle (l : List Record) (t : String) : Bool :=
  l.any fun r => r.title == t && r.status == activeStatus

/-- The query of `update_record`:
`select(Record).where(Record.title == t, Record.status == "active", Record.id != i)`. -/
def hasActiveConflict (l : List Record) (t : String) (i : Nat) : Bool :=
  l.any fun r => r.title == t && r.status == activeStatus && r.id != i

/-- `services.list_records`: optional equality filter on `status` (skipped
when the filter is absent or empty, Python truthiness), then
`order_by(Record.created_at.desc())`. -/
def list_records (db : Store) (status : Option String) : List Record :=
  let base := match status with
    | none => db.records
    | some s => if s == "" then db.records else db.records.filter fun r => r.status == s
  List.insertionSort (fun a b => b.created_at ≤ a.created_at) base

/-- `services.create_record`: if the payload status is `"active"` and an
active record with the same title exists, raise `ValueError` (conflict);
otherwise insert a row with `status = payload.status or "active"` and both
timestamps set to now. -/
def create_record (db : Store) (now : Nat) (payload : RecordCreate) :
    Except SvcError (Record × Store) :=
  if payload.status == activeStatus && hasActiveTitle db.records payload.title then
    Except.error SvcError.conflict
  else
    let r : Record :=
      { id := db.next_id, title := payload.title, description := payload.description,
        status := if payload.status == "" then activeStatus else payload.status,
        created_at := now, updated_at := now }
    Except.ok (r, { records := db.records ++ [r], next_id := db.next_id + 1 })

/-- `services.get_record`: primary-key lookup `db.get(Record, record_id)`. -/
def get_record (db : Store) (record_id : Nat) : Option Record :=
  db.records.find? fun r => r.id == record_id

/-- The assignment block of `update_record`: each field is assigned only
when present in `changes` (`if changes.x is not None`).  The ORM refreshes
`updated_at` (`onupdate=datetime.utcnow`) only when the flush emits an
UPDATE for the row, which happens exactly when at least one attribute was
assigned — any assignment produces a set event and puts its column into the
UPDATE, even when the new value equals the old one; a payload with all
fields absent assigns nothing, so no UPDATE is emitted and `updated_at`
keeps its old value. -/
def applyChanges (r : Record) (changes : RecordUpdate) (now : Nat) : Record :=
  { id := r.id,
    title := changes.title.getD r.title,
    description := match changes.description with
      | some d => some d
      | none => r.description,
    status := changes.status.getD r.status,
    created_at := r.created_at,
    updated_at :=
      if changes.title.isSome || changes.description.isSome || changes.status.isSome
      then now else r.updated_at }

/-- `services.update_record`: look up by id (`LookupError` when absent),
compute the effective title and status (`changes.x if changes.x is not None
else rec.x`), check for a conflicting other active record, then assign
exactly the fields present in `changes`; the commit refreshes `updated_at`
only when some field was assigned (see `applyChanges`). -/
def update_record (db : Store) (now : Nat) (record_id : Nat) (changes : RecordUpdate) :
    Except SvcError (Record × Store) :=
  match db.records.find? (fun r => r.id == record_id) with
  | none => Except.error SvcError.notFound
  | some r =>
    if (changes.status.getD r.status) == activeStatus &&
        hasActiveConflict db.records (changes.title.getD r.title) r.id then
      Except.error SvcError.conflict
    else
      let r2 : Record := applyChanges r changes now
      Except.ok (r2, { db with records := db.records.map fun o => if o.id == r.id then r2 else o })

/-- `services.delete_record`: look up by id; `(False, None)` when absent,
otherwise delete the row and return `(True, record_id)`. -/
def delete_record (db : Store) (record_id : Nat) : (Bool × Option Nat) × Store :=
  match db.records.find? (fun r => r.id == record_id) with
  | none => ((false, none), db)
  | some _ =>
    ((true, some record_id),
     { db with records := db.records.eraseP fun r => r.id == record_id })

/-- `main.py` POST `/records`: 201 with the new store on success, 409 with
the store unchanged on `ValueError`. -/
def http_create_record (db : Store) (now : Nat) (payload : RecordCreate) : Nat × Store :=
  match create_record db now payload with
  | Except.ok (_, db2) => (201, db2)
  | Except.error _ => (409, db)

/-- `main.py` PUT `/records/{id}`: 200 on success, 404 on `LookupError`,
409 on `ValueError`; the store is unchanged on both error paths. -/
def http_update_record (db : Store) (now : Nat) (record_id : Nat) (changes : RecordUpdate) :
    Nat × Store :=
  match update_record db now record_id changes with
  | Except.ok (_, db2) => (200, db2)
  | Except.error SvcError.notFound => (404, db)
  | Except.error SvcError.conflict => (409, db)

/-- `main.py` DELETE `/records/{id}`: 204 with empty body when the service
reports a deletion, 404 otherwise. -/
def http_delete_record (db : Store) (record_id : Nat) : Nat × Store :=
  let res := delete_record db record_id
  if res.1.1 then (204, res.2) else (404, db)

/-- The data-model invariant of the spec: no two active records share a title
(two active records with equal titles are the same row). -/
def ActiveTitlesUnique (db : Store) : Prop :=
  ∀ a ∈ db.records, ∀ b ∈ db.records,
    a.status = activeStatus → b.status = activeStatus → a.title = b.title → a.id = b.id

/-- Well-formedness of the database: ids are pairwise distinct and below the
auto-increment counter.  the SQLite primary key guarantees this. -/
def WF (db : Store) : Prop :=
  db.records.Pairwise (fun a b => a.id ≠ b.id) ∧ ∀ r ∈ db.records, r.id < db.next_id

instance (db : Store) : Decidable (ActiveTitlesUnique db) := by
  unfold ActiveTitlesUnique; infer_instance

instance (db : Store) : Decidable (WF db) := by
  unfold WF; infer_instance

/-- One API write operation, with the clock value at which it runs. -/
inductive Op where
  | create (now : Nat) (payload : RecordCreate)
  | update (now : Nat) (record_id : Nat) (changes : RecordUpdate)
  | delete (record_id : Nat)
deriving Repr, DecidableEq

/-- Running one operation against the database: a failed operation leaves
the store unchanged (the session never committed). -/
def applyOp (db : Store) : Op → Store
  | Op.create now p =>
    match create_record db now p with
    | Except.ok (_, db2) => db2
    | Except.error _ => db
  | Op.update now i c =>
    match update_record db now i c with
    | Except.ok (_, db2) => db2
    | Except.error _ => db
  | Op.delete i => (delete_record db i).2

/-- Running a sequence of operations in order. -/
def applyOps (db : Store) (ops : List Op) : Store := ops.foldl applyOp db

/-- An operation whose payload passed pydantic validation; only create
payloads carry constraints that matter here. -/
def ValidOp : Op → Prop
  | Op.create _ p => ValidCreate p
  | Op.update _ _ _ => True
  | Op.delete _ => True

instance (op : Op) : Decidable (ValidOp op) :=
  match op with
  | Op.create _ p => inferInstanceAs (Decidable (ValidCreate p))
  | Op.update _ _ _ => inferInstanceAs (Decidable True)
  | Op.delete _ => inferInstanceAs (Decidable True)

/-! ### Basic lemmas about the queries and lookups -/

lemma hasActiveTitle_eq_true_iff (l : List Record) (t : String) :
    hasActiveTitle l t = true ↔ ∃ r ∈ l, r.title = t ∧ r.status = activeStatus := by
  simp [hasActiveTitle]

lemma hasActiveConflict_eq_true_iff (l : List Record) (t : String) (i : Nat) :
    hasActiveConflict l t i = true ↔
      ∃ r ∈ l, r.title = t ∧ r.status = activeStatus ∧ r.id ≠ i := by
  simp [hasActiveConflict, and_assoc]

lemma get_record_mem {db : Store} {i : Nat} {r : Record} (h : get_record db i = some r) :
    r ∈ db.records ∧ r.id = i := by
  refine ⟨List.mem_of_find?_eq_some h, ?_⟩
  simpa using List.find?_some h

lemma get_record_eq_none {db : Store} {i : Nat} (h : ∀ r ∈ db.records, r.id ≠ i) :
    get_record db i = none := by
  unfold get_record
  rw [List.find?_eq_none]
  intro x hx
  simpa using h x hx

lemma find?_append_of_notin (p : Record → Bool) (l1 l2 : List Record)
    (h : ∀ x ∈ l1, p x = false) : (l1 ++ l2).find? p = l2.find? p := by
  rw [List.find?_append]
  have h1 : l1.find? p = none := by
    rw [List.find?_eq_none]; intro x hx; simp [h x hx]
  simp [h1]

/-! ### Preservation of the active-title uniqueness invariant -/

lemma atu_create (db : Store) (now : Nat) (p : RecordCreate) (hs : p.status ≠ "")
    (h : ActiveTitlesUnique db) : ActiveTitlesUnique (applyOp db (Op.create now p)) := by
  unfold applyOp
  cases hC : p.status == activeStatus && hasActiveTitle db.records p.title with
  | true => simp [create_record, hC]; exact h
  | false =>
    simp only [create_record, hC, Bool.false_eq_true, if_false]
    unfold ActiveTitlesUnique
    intro a ha b hb hsa hsb ht
    have hse : (p.status == "") = false := by simp [hs]
    simp only [List.mem_append, List.mem_singleton] at ha hb
    rcases ha with haL | haR <;> rcases hb with hbL | hbR
    · exact h a haL b hbL hsa hsb ht
    · subst hbR
      exfalso
      simp only [hse, Bool.false_eq_true, if_false] at hsb
      have hx : (p.status == activeStatus) = true := by simp [hsb]
      rw [hx, Bool.true_and] at hC
      have ht2 : hasActiveTitle db.records p.title = true := by
        refine (hasActiveTitle_eq_true_iff _ _).mpr ⟨a, haL, ?_, hsa⟩
        simpa [hse] using ht
      rw [ht2] at hC
      exact Bool.true_eq_false.mp hC
    · subst haR
      exfalso
      simp only [hse, Bool.false_eq_true, if_false] at hsa
      have hx : (p.status == activeStatus) = true := by simp [hsa]
      rw [hx, Bool.true_and] at hC
      have ht2 : hasActiveTitle db.records p.title = true := by
        refine (hasActiveTitle_eq_true_iff _ _).mpr ⟨b, hbL, ?_, hsb⟩
        simpa [hse] using ht.symm
      rw [ht2] at hC
      exact Bool.true_eq_false.mp hC
    · subst haR; subst hbR; rfl

lemma atu_update (db : Store) (now i : Nat) (c : RecordUpdate)
    (h : ActiveTitlesUnique db) : ActiveTitlesUnique (applyOp db (Op.update now i c)) := by
  unfold applyOp
  cases hf : db.records.find? (fun r => r.id == i) with
  | none => simp [update_record, hf]; exact h
  | some r =>
    cases hC : (c.status.getD r.status) == activeStatus &&
        hasActiveConflict db.records (c.title.getD r.title) r.id with
    | true => simp [update_record, hf, hC]; exact h
    | false =>
      simp only [update_record, hf, hC, Bool.false_eq_true, if_false]
      unfold ActiveTitlesUnique
      intro a ha b hb hsa hsb ht
      simp only [List.mem_map] at ha hb
      obtain ⟨oa, hoa, ha2⟩ := ha
      obtain ⟨ob, hob, hb2⟩ := hb
      have hst : (applyChanges r c now).status = c.status.getD r.status := by
        simp [applyChanges]
      have htt : (applyChanges r c now).title = c.title.getD r.title := by
        simp [applyChanges]
      cases hea : oa.id == r.id <;> cases heb : ob.id == r.id <;>
        rw [hea] at ha2 <;> rw [heb] at hb2 <;> simp at ha2 hb2
      · subst ha2; subst hb2
        exact h oa hoa ob hob hsa hsb ht
      · subst ha2; subst hb2
        exfalso
        have hx : (c.status.getD r.status == activeStatus) = true := by
          simp [← hst, hsb]
        rw [hx, Bool.true_and] at hC
        have ht2 : hasActiveConflict db.records (c.title.getD r.title) r.id = true := by
          refine (hasActiveConflict_eq_true_iff _ _ _).mpr ⟨oa, hoa, ?_, hsa, by simpa using hea⟩
          rw [← htt]; exact ht
        rw [ht2] at hC
        exact Bool.true_eq_false.mp hC
      · subst ha2; subst hb2
        exfalso
        have hx : (c.status.getD r.status == activeStatus) = true := by
          simp [← hst, hsa]
        rw [hx, Bool.true_and] at hC
        have ht2 : hasActiveConflict db.records (c.title.getD r.title) r.id = true := by
          refine (hasActiveConflict_eq_true_iff _ _ _).mpr ⟨ob, hob, ?_, hsb, by simpa using heb⟩
          rw [← htt]; exact ht.symm
        rw [ht2] at hC
        exact Bool.true_eq_false.mp hC
      · subst ha2; subst hb2; rfl

lemma atu_delete (db : Store) (i : Nat)
    (h : ActiveTitlesUnique db) : ActiveTitlesUnique (applyOp db (Op.delete i)) := by
  cases hf : db.records.find? (fun r => r.id == i) with
  | none => simpa [applyOp, delete_record, hf] using h
  | some r =>
    simp only [applyOp, delete_record, hf]
    unfold ActiveTitlesUnique
    intro a ha b hb hsa hsb ht
    exact h a ((List.eraseP_sublist _).mem ha) b ((List.eraseP_sublist _).mem hb) hsa hsb ht

lemma atu_applyOp (db : Store) (op : Op) (hv : ValidOp op)
    (h : ActiveTitlesUnique db) : ActiveTitlesUnique (applyOp db op) := by
  cases op with
  | create now p => exact atu_create db now p hv.2.2.1 h
  | update now i c => exact atu_update db now i c h
  | delete i => exact atu_delete db i h

lemma atu_applyOps (ops : List Op) : ∀ db : Store, ActiveTitlesUnique db →
    (∀ op ∈ ops, ValidOp op) → ActiveTitlesUnique (applyOps db ops) := by
  induction ops with
  | nil => intro db h _; exact h
  | cons op t ih =>
    intro db h hv
    have h1 : ActiveTitlesUnique (applyOp db op) := atu_applyOp db op (hv op (by simp)) h
    exact ih (applyOp db op) h1 (fun o ho => hv o (by simp [ho]))

lemma atu_empty : ActiveTitlesUnique emptyStore := by
  intro a ha
  simp [emptyStore] at ha

/-! ### Claim theorems -/

/-- C1: starting from the empty store, after any sequence of create, update
and delete operations on validated payloads (failed operations leave the
store unchanged), no two records with status `"active"` share a title; and
every single operation preserves this invariant. -/
theorem claim_active_title_uniqueness :
    (∀ (db : Store) (op : Op), ValidOp op → ActiveTitlesUnique db →
      ActiveTitlesUnique (applyOp db op)) ∧
    (∀ ops : List Op, (∀ op ∈ ops, ValidOp op) →
      ActiveTitlesUnique (applyOps emptyStore ops)) :=
  ⟨fun db op hv h => atu_applyOp db op hv h,
   fun ops hv => atu_applyOps ops emptyStore atu_empty hv⟩

/-- Witness for C1 at a concrete operation sequence. -/
theorem claim_active_title_uniqueness_witness :
    ActiveTitlesUnique (applyOps emptyStore
      [Op.create 0 { title := "A", description := none, status := activeStatus },
       Op.update 1 1 { title := none, description := none, status := some ("archived") },
       Op.delete 1]) :=
  claim_active_title_uniqueness.2 _ (by decide)

lemma update_conflict_iff (db : Store) (now i : Nat) (c : RecordUpdate) (r : Record)
    (hfind : get_record db i = some r) :
    update_record db now i c = Except.error SvcError.conflict ↔
      (c.status.getD r.status = activeStatus ∧
        ∃ o ∈ db.records, o.id ≠ r.id ∧ o.title = c.title.getD r.title ∧
          o.status = activeStatus) := by
  have hf : db.records.find? (fun x => x.id == i) = some r := hfind
  cases hC : (c.status.getD r.status) == activeStatus &&
      hasActiveConflict db.records (c.title.getD r.title) r.id with
  | true =>
    simp only [update_record, hf, hC, if_true]
    constructor
    · intro _
      rw [Bool.and_eq_true] at hC
      obtain ⟨o, ho, ht, hs2, hid⟩ := (hasActiveConflict_eq_true_iff _ _ _).mp hC.2
      exact ⟨by simpa using hC.1, o, ho, hid, ht, hs2⟩
    · intro _; trivial
  | false =>
    simp only [update_record, hf, hC, Bool.false_eq_true, if_false]
    constructor
    · intro hcontra; simp at hcontra
    · rintro ⟨hst, o, ho, hid, ht, hs2⟩
      exfalso
      have hT : (c.status.getD r.status == activeStatus &&
          hasActiveConflict db.records (c.title.getD r.title) r.id) = true := by
        rw [Bool.and_eq_true]
        exact ⟨by simp [hst],
          (hasActiveConflict_eq_true_iff _ _ _).mpr ⟨o, ho, ht, hs2, hid⟩⟩
      rw [hC] at hT
      exact Bool.false_eq_true.mp hT

lemma update_ok_parts {db : Store} {now i : Nat} {c : RecordUpdate} {r r2 : Record}
    {db2 : Store} (hfind : get_record db i = some r)
    (hok : update_record db now i c = Except.ok (r2, db2)) :
    r2 = applyChanges r c now ∧
      db2 = { db with records := db.records.map fun o =>
        if o.id == r.id then applyChanges r c now else o } := by
  have hf : db.records.find? (fun x => x.id == i) = some r := hfind
  cases hC : (c.status.getD r.status) == activeStatus &&
      hasActiveConflict db.records (c.title.getD r.title) r.id with
  | true => simp [update_record, hf, hC] at hok
  | false =>
    simp only [update_record, hf, hC, Bool.false_eq_true, if_false,
      Except.ok.injEq, Prod.mk.injEq] at hok
    exact ⟨hok.1.symm, hok.2.symm⟩

/-- C3: an update of an existing record fails with a conflict error exactly
when the effective status is active and another record (different id) has
the same effective title and active status; on conflict the HTTP layer
answers 409 and the store — hence the original record — is unchanged. -/
theorem claim_update_conflict_characterisation (db : Store) (now i : Nat)
    (c : RecordUpdate) (r : Record) (hfind : get_record db i = some r) :
    (update_record db now i c = Except.error SvcError.conflict ↔
      (c.status.getD r.status = activeStatus ∧
        ∃ o ∈ db.records, o.id ≠ r.id ∧ o.title = c.title.getD r.title ∧
          o.status = activeStatus)) ∧
    (update_record db now i c = Except.error SvcError.conflict →
      http_update_record db now i c = (409, db)) := by
  refine ⟨update_conflict_iff db now i c r hfind, ?_⟩
  intro herr
  simp [http_update_record, herr]

/-- C4: an update of an existing record applies exactly the fields present
in the changes payload, leaves absent fields unmodified, and the conflict
check is decided by the effective title and status (changed value if
provided, else the existing value). -/
theorem claim_partial_update_semantics (db : Store) (now i : Nat) (c : RecordUpdate)
    (r : Record) (hfind : get_record db i = some r) :
    (update_record db now i c = Except.error SvcError.conflict ↔
      (c.status.getD r.status = activeStatus ∧
        ∃ o ∈ db.records, o.id ≠ r.id ∧ o.title = c.title.getD r.title ∧
          o.status = activeStatus)) ∧
    (∀ r2 db2, update_record db now i c = Except.ok (r2, db2) →
      r2.id = r.id ∧ r2.created_at = r.created_at ∧
      r2.title = c.title.getD r.title ∧ r2.status = c.status.getD r.status ∧
      (∀ t, c.title = some t → r2.title = t) ∧
      (c.title = none → r2.title = r.title) ∧
      (∀ d, c.description = some d → r2.description = some d) ∧
      (c.description = none → r2.description = r.description) ∧
      (∀ s, c.status = some s → r2.status = s) ∧
      (c.status = none → r2.status = r.status)) := by
  refine ⟨update_conflict_iff db now i c r hfind, ?_⟩
  intro r2 db2 hok
  obtain ⟨hr2, -⟩ := update_ok_parts hfind hok
  subst hr2
  refine ⟨rfl, rfl, rfl, rfl, ?_, ?_, ?_, ?_, ?_, ?_⟩
  · intro t ht; simp [applyChanges, ht]
  · intro ht; simp [applyChanges, ht]
  · intro d hd; simp [applyChanges, hd]
  · intro hd; simp [applyChanges, hd]
  · intro s hs; simp [applyChanges, hs]
  · intro hs; simp [applyChanges, hs]

/-- C10: a payload field that is `null` is indistinguishable from an
omitted field (pydantic parses both to `None`), so an update with a `none`
field leaves the stored field unchanged; consequently no update can reset
a non-null description back to null. -/
theorem claim_null_field_is_omitted (db : Store) (now i : Nat) (c : RecordUpdate)
    (r r2 : Record) (db2 : Store) (hfind : get_record db i = some r)
    (hok : update_record db now i c = Except.ok (r2, db2)) :
    (c.title = none → r2.title = r.title) ∧
    (c.description = none → r2.description = r.description) ∧
    (c.status = none → r2.status = r.status) ∧
    (r2.description = none → r.description = none) := by
  obtain ⟨hr2, -⟩ := update_ok_parts hfind hok
  subst hr2
  refine ⟨?_, ?_, ?_, ?_⟩
  · intro ht; simp [applyChanges, ht]
  · intro hd; simp [applyChanges, hd]
  · intro hs; simp [applyChanges, hs]
  · intro hnone
    cases hd : c.description with
    | none => simpa [applyChanges, hd] using hnone
    | some d => simp [applyChanges, hd] at hnone

/-- C7: updating an id that is not in the store fails with not-found for
every payload, the HTTP layer answers 404, and the store is unchanged. -/
theorem claim_update_unknown_id (db : Store) (now i : Nat) (c : RecordUpdate)
    (habs : ∀ r ∈ db.records, r.id ≠ i) :
    update_record db now i c = Except.error SvcError.notFound ∧
    http_update_record db now i c = (404, db) := by
  have hf : db.records.find? (fun r => r.id == i) = none := get_record_eq_none habs
  refine ⟨?_, ?_⟩
  · simp [update_record, hf]
  · simp [http_update_record, update_record, hf]

/-- C2: for a validated create payload, if the status is active and an
active record with the same title exists the service raises a conflict (409,
store unchanged); otherwise it inserts a new record carrying exactly the
given title, description and status (201 with the extended store). -/
theorem claim_create_semantics (db : Store) (now : Nat) (p : RecordCreate)
    (hv : ValidCreate p) :
    ((p.status = activeStatus ∧
        ∃ o ∈ db.records, o.title = p.title ∧ o.status = activeStatus) →
      create_record db now p = Except.error SvcError.conflict ∧
      http_create_record db now p = (409, db)) ∧
    (¬ (p.status = activeStatus ∧
        ∃ o ∈ db.records, o.title = p.title ∧ o.status = activeStatus) →
      ∃ r db2, create_record db now p = Except.ok (r, db2) ∧
        r.title = p.title ∧ r.description = p.description ∧ r.status = p.status ∧
        r.id = db.next_id ∧
        db2.records = db.records ++ [r] ∧ db2.next_id = db.next_id + 1 ∧
        http_create_record db now p = (201, db2)) := by
  constructor
  · rintro ⟨hps, hex⟩
    have hC : (p.status == activeStatus && hasActiveTitle db.records p.title) = true := by
      rw [Bool.and_eq_true]
      exact ⟨by simp [hps], (hasActiveTitle_eq_true_iff _ _).mpr hex⟩
    exact ⟨by simp [create_record, hC], by simp [http_create_record, create_record, hC]⟩
  · intro hn
    have hC : (p.status == activeStatus && hasActiveTitle db.records p.title) = false := by
      cases hb : p.status == activeStatus && hasActiveTitle db.records p.title with
      | false => rfl
      | true =>
        exfalso; apply hn
        rw [Bool.and_eq_true] at hb
        exact ⟨by simpa using hb.1, (hasActiveTitle_eq_true_iff _ _).mp hb.2⟩
    have hse : (p.status == "") = false := by simp [hv.2.2.1]
    refine ⟨{ id := db.next_id, title := p.title, description := p.description,
              status := p.status, created_at := now, updated_at := now },
            { records := db.records ++
                [{ id := db.next_id, title := p.title, description := p.description,
                   status := p.status, created_at := now, updated_at := now }],
              next_id := db.next_id + 1 },
            ?_, rfl, rfl, rfl, rfl, rfl, rfl, ?_⟩
    · simp [create_record, hC, hse]
    · simp [http_create_record, create_record, hC, hse]

instance : IsTotal Record (fun a b => b.created_at ≤ a.created_at) :=
  ⟨fun a b => Nat.le_total b.created_at a.created_at⟩

instance : IsTrans Record (fun a b => b.created_at ≤ a.created_at) :=
  ⟨fun _ _ _ hab hbc => Nat.le_trans hbc hab⟩

/-- C5: listing with a non-empty status filter returns exactly the records
with that status (as a permutation of the filtered table) in created_at
descending order; listing with no filter or with the empty-string filter
returns all records, identically ordered. -/
theorem claim_list_semantics (db : Store) :
    (∀ s : String, s ≠ "" →
      List.Perm (list_records db (some s)) (db.records.filter fun r => r.status == s) ∧
      List.Sorted (fun a b : Record => b.created_at ≤ a.created_at)
        (list_records db (some s))) ∧
    list_records db (some ("")) = list_records db none ∧
    List.Perm (list_records db none) db.records ∧
    List.Sorted (fun a b : Record => b.created_at ≤ a.created_at)
      (list_records db none) := by
  refine ⟨?_, ?_, ?_, ?_⟩
  · intro s hs
    have hse : (s == "") = false := by simp [hs]
    constructor
    · simpa [list_records, hse] using
        List.perm_insertionSort (fun a b : Record => b.created_at ≤ a.created_at)
          (db.records.filter fun r => r.status == s)
    · simpa [list_records, hse] using
        List.sorted_insertionSort (fun a b : Record => b.created_at ≤ a.created_at)
          (db.records.filter fun r => r.status == s)
  · simp [list_records]
  · simpa [list_records] using
      List.perm_insertionSort (fun a b : Record => b.created_at ≤ a.created_at) db.records
  · simpa [list_records] using
      List.sorted_insertionSort (fun a b : Record => b.created_at ≤ a.created_at) db.records

/-- C6: in a well-formed store, a successful create followed immediately by
a get of the id of the new record returns exactly the created record (every
field equal, so in particular equal up to `updated_at`). -/
theorem claim_create_get_roundtrip (db : Store) (now : Nat) (p : RecordCreate)
    (r : Record) (db2 : Store) (hwf : WF db)
    (hok : create_record db now p = Except.ok (r, db2)) :
    get_record db2 r.id = some r := by
  cases hC : (p.status == activeStatus && hasActiveTitle db.records p.title) with
  | true => simp [create_record, hC] at hok
  | false =>
    simp only [create_record, hC, Bool.false_eq_true, if_false,
      Except.ok.injEq, Prod.mk.injEq] at hok
    obtain ⟨hr, hdb2⟩ := hok
    subst hdb2
    unfold get_record
    rw [find?_append_of_notin]
    · rw [← hr]
      simp [List.find?]
    · intro x hx
      have hlt := hwf.2 x hx
      rw [← hr]
      simp [Nat.ne_of_lt hlt]

lemma mem_eraseP_id (l : List Record) (i : Nat)
    (hl : l.Pairwise fun a b => a.id ≠ b.id) (x : Record) :
    (x ∈ l.eraseP fun r => r.id == i) ↔ x ∈ l ∧ x.id ≠ i := by
  induction l with
  | nil => simp
  | cons hd t ih =>
    rw [List.pairwise_cons] at hl
    cases hh : hd.id == i with
    | true =>
      have hid : hd.id = i := by simpa using hh
      simp only [List.eraseP_cons, hh, cond_true]
      constructor
      · intro hx
        refine ⟨List.mem_cons_of_mem _ hx, ?_⟩
        intro hxi
        exact (hl.1 x hx) (by rw [hid, hxi])
      · rintro ⟨hx, hxi⟩
        rcases List.mem_cons.mp hx with rfl | hx2
        · exact absurd hid hxi
        · exact hx2
    | false =>
      have hid : hd.id ≠ i := by simpa using hh
      simp only [List.eraseP_cons, hh, cond_false]
      rw [List.mem_cons, ih hl.2, List.mem_cons]
      constructor
      · rintro (rfl | ⟨hx, hxi⟩)
        · exact ⟨Or.inl rfl, hid⟩
        · exact ⟨Or.inr hx, hxi⟩
      · rintro ⟨rfl | hx, hxi⟩
        · exact Or.inl rfl
        · exact Or.inr ⟨hx, hxi⟩

/-- C8: in a well-formed store, deleting an existing id reports success
(true with the id, HTTP 204) and removes exactly that record; deleting an
absent id reports not-found (HTTP 404) and leaves the store unchanged; in
particular a second delete of the same id always answers 404. -/
theorem claim_delete_idempotent_observable (db : Store) (i : Nat) (hwf : WF db) :
    ((∃ r ∈ db.records, r.id = i) →
      (delete_record db i).1 = (true, some i) ∧
      (http_delete_record db i).1 = 204 ∧
      ∀ x, x ∈ (delete_record db i).2.records ↔ x ∈ db.records ∧ x.id ≠ i) ∧
    ((∀ r ∈ db.records, r.id ≠ i) →
      delete_record db i = ((false, none), db) ∧
      http_delete_record db i = (404, db)) ∧
    http_delete_record (delete_record db i).2 i = (404, (delete_record db i).2) := by
  cases hf : db.records.find? (fun r => r.id == i) with
  | none =>
    have habs : ∀ r ∈ db.records, r.id ≠ i := by
      intro x hx
      have := List.find?_eq_none.mp hf x hx
      simpa using this
    refine ⟨?_, ?_, ?_⟩
    · rintro ⟨r, hr, hri⟩
      exact absurd hri (habs r hr)
    · intro _
      exact ⟨by simp [delete_record, hf], by simp [http_delete_record, delete_record, hf]⟩
    · simp [http_delete_record, delete_record, hf]
  | some r =>
    have hrm : r ∈ db.records := List.mem_of_find?_eq_some hf
    have hri : r.id = i := by simpa using List.find?_some hf
    have hmem : ∀ x, (x ∈ db.records.eraseP fun o => o.id == i) ↔
        x ∈ db.records ∧ x.id ≠ i :=
      fun x => mem_eraseP_id db.records i hwf.1 x
    have hf2 : (db.records.eraseP fun o => o.id == i).find? (fun o => o.id == i) = none := by
      rw [List.find?_eq_none]
      intro x hx
      simpa using ((hmem x).mp hx).2
    refine ⟨?_, ?_, ?_⟩
    · intro _
      refine ⟨by simp [delete_record, hf], by simp [http_delete_record, delete_record, hf], ?_⟩
      intro x
      simpa [delete_record, hf] using hmem x
    · intro habs
      exact absurd hri (habs r hrm)
    · simp [http_delete_record, delete_record, hf, hf2]

deriving instance DecidableEq for Except

/-! ### Concrete fixtures for witnesses -/

/-- An active record with title A. -/
def recA : Record :=
  { id := 1, title := "A", description := none, status := activeStatus,
    created_at := 0, updated_at := 0 }

/-- An active record with title B. -/
def recB : Record :=
  { id := 2, title := "B", description := none, status := activeStatus,
    created_at := 1, updated_at := 1 }

/-- A store holding only `recA`. -/
def dbA : Store := { records := [recA], next_id := 2 }

/-- A store holding `recA` and `recB`. -/
def dbB : Store := { records := [recA, recB], next_id := 3 }

/-- A create payload duplicating the active title A. -/
def pDup : RecordCreate := { title := "A", description := none, status := activeStatus }

/-- A create payload with the fresh title B. -/
def pB : RecordCreate := { title := "B", description := none, status := activeStatus }

/-- The record created by `create_record dbA 3 pB`. -/
def recB3 : Record :=
  { id := 2, title := "B", description := none, status := activeStatus,
    created_at := 3, updated_at := 3 }

/-- The store after `create_record dbA 3 pB`. -/
def dbA2 : Store := { records := [recA, recB3], next_id := 3 }

/-- An update payload renaming to the taken title A. -/
def cUp : RecordUpdate := { title := some ("A"), description := none, status := none }

/-- An update payload setting only the description. -/
def cD : RecordUpdate := { title := none, description := some ("d"), status := none }

/-- An update payload setting only the status. -/
def cArch : RecordUpdate :=
  { title := none, description := none, status := some ("archived") }

/-- An empty update payload. -/
def cNone : RecordUpdate := { title := none, description := none, status := none }

/-- The record produced by `update_record dbB 7 1 cD`. -/
def updA : Record :=
  { id := 1, title := "A", description := some ("d"), status := activeStatus,
    created_at := 0, updated_at := 7 }

/-- The store after `update_record dbB 7 1 cD`. -/
def dbBupd : Store := { records := [updA, recB], next_id := 3 }

/-- The record produced by `update_record dbA 4 1 cArch`. -/
def recAarch : Record :=
  { id := 1, title := "A", description := none, status := "archived",
    created_at := 0, updated_at := 4 }

/-- The store after `update_record dbA 4 1 cArch`. -/
def dbA3 : Store := { records := [recAarch], next_id := 2 }

/-! ### Witnesses -/

/-- Witness for C2: creating a second active record titled A conflicts. -/
theorem claim_create_semantics_witness :
    create_record dbA 5 pDup = Except.error SvcError.conflict ∧
    http_create_record dbA 5 pDup = (409, dbA) :=
  (claim_create_semantics dbA 5 pDup (by decide)).1 (by decide)

/-- Witness for C3: renaming record 2 to the taken active title A conflicts. -/
theorem claim_update_conflict_characterisation_witness :
    update_record dbB 7 2 cUp = Except.error SvcError.conflict :=
  ((claim_update_conflict_characterisation dbB 7 2 cUp recB (by decide)).1).mpr (by decide)

/-- Witness for C4: a description-only update applies the new description. -/
theorem claim_partial_update_semantics_witness :
    updA.description = some ("d") :=
  ((claim_partial_update_semantics dbB 7 1 cD recA (by decide)).2 updA dbBupd
    (by decide)).2.2.2.2.2.2.1 ("d") rfl

/-- Witness for C5: the active filter on `dbB` returns the active records. -/
theorem claim_list_semantics_witness :
    List.Perm (list_records dbB (some activeStatus))
      (dbB.records.filter fun r => r.status == activeStatus) :=
  ((claim_list_semantics dbB).1 activeStatus (by decide)).1

/-- Witness for C6: creating B in `dbA` then getting its id returns it. -/
theorem claim_create_get_roundtrip_witness :
    get_record dbA2 recB3.id = some recB3 :=
  claim_create_get_roundtrip dbA 3 pB recB3 dbA2 (by decide) (by decide)

/-- Witness for C7: updating the absent id 5 reports not-found and 404. -/
theorem claim_update_unknown_id_witness :
    update_record dbA 9 5 cNone = Except.error SvcError.notFound ∧
    http_update_record dbA 9 5 cNone = (404, dbA) :=
  claim_update_unknown_id dbA 9 5 cNone (by decide)

/-- Witness for C8: a second delete of id 1 in `dbA` answers 404. -/
theorem claim_delete_idempotent_observable_witness :
    http_delete_record (delete_record dbA 1).2 1 = (404, (delete_record dbA 1).2) :=
  (claim_delete_idempotent_observable dbA 1 (by decide)).2.2

/-- Witness for C10: a status-only update leaves the title unchanged. -/
theorem claim_null_field_is_omitted_witness :
    recAarch.title = recA.title :=
  (claim_null_field_is_omitted dbA 4 1 cArch recA recAarch dbA3 (by decide) (by decide)).1 rfl
